import Mathlib

/-!
# Verification of the one-prompt session / panel / layout core

Shallow embedding of the session store (`src/core/sessions.js`), the API chat
history manager (`api-chat` module), the tab actions (`src/core/tabs.js`), the
panel multiplexer step of `renderWebviews` (`src/renderer.js`), and the
resizable layout engine (`resizer` and `layout` modules).

JavaScript arrays become `List`, objects acting as string-keyed maps become
association lists, `null`/`undefined` become `Option`, and the DOM /
`localStorage` effects become explicit state records.  Each definition cites
the source function it embeds.
-/

set_option autoImplicit false

namespace OnePrompt

/-- A chat message `{role, content}` as stored in `apiChatHistory`. -/
structure ChatMsg where
  role : String
  content : String
deriving DecidableEq, Repr

/-- The last `n` elements of a list; embeds JavaScript `arr.slice(-n)`
(for `n > 0`): the whole list when it is shorter than `n`. -/
def lastN (n : Nat) (l : List ChatMsg) : List ChatMsg :=
  (l.reverse.take n).reverse

theorem length_lastN (n : Nat) (l : List ChatMsg) :
    (lastN n l).length = min n l.length := by
  simp [lastN]

theorem lastN_of_length_le (n : Nat) (l : List ChatMsg) (h : l.length ≤ n) :
    lastN n l = l := by
  have h' : l.reverse.length ≤ n := by simpa using h
  simp [lastN, List.take_of_length_le h']

theorem lastN_append (n : Nat) (xs ys : List ChatMsg) :
    lastN n (xs ++ ys) = lastN (n - ys.length) xs ++ lastN n ys := by
  simp [lastN, List.take_append_eq_append_take]

theorem lastN_lastN (m n : Nat) (l : List ChatMsg) :
    lastN m (lastN n l) = lastN (min m n) l := by
  simp [lastN, List.take_take]

theorem lastN_lastN_append (n : Nat) (xs ys : List ChatMsg) :
    lastN n (lastN n xs ++ ys) = lastN n (xs ++ ys) := by
  rw [lastN_append, lastN_append, lastN_lastN,
    Nat.min_eq_left (Nat.sub_le n ys.length)]

/-- `API_HISTORY_LIMIT` from the api-chat module: sliding-window cap on each
per-(session, service) history list. -/
def API_HISTORY_LIMIT : Nat := 12

/-- The push-then-truncate step of `saveApiHistory` (api-chat module):
`history.push({role, content})` followed by
`if (length > API_HISTORY_LIMIT) slice(-API_HISTORY_LIMIT)`. -/
def apiHistoryAppend (h : List ChatMsg) (m : ChatMsg) : List ChatMsg :=
  if API_HISTORY_LIMIT < (h ++ [m]).length then lastN API_HISTORY_LIMIT (h ++ [m])
  else h ++ [m]

theorem apiHistoryAppend_eq_lastN (h : List ChatMsg) (m : ChatMsg) :
    apiHistoryAppend h m = lastN API_HISTORY_LIMIT (h ++ [m]) := by
  rw [apiHistoryAppend]
  by_cases hc : API_HISTORY_LIMIT < (h ++ [m]).length
  · rw [if_pos hc]
  · rw [if_neg hc, lastN_of_length_le _ _ (Nat.le_of_not_lt hc)]

theorem length_apiHistoryAppend_le (h : List ChatMsg) (m : ChatMsg) :
    (apiHistoryAppend h m).length ≤ API_HISTORY_LIMIT := by
  rw [apiHistoryAppend]
  by_cases hc : API_HISTORY_LIMIT < (h ++ [m]).length
  · rw [if_pos hc]
    simp [length_lastN]
  · rw [if_neg hc]
    exact Nat.le_of_not_lt hc

theorem foldl_apiHistoryAppend (msgs : List ChatMsg) (h : List ChatMsg)
    (hh : h.length ≤ API_HISTORY_LIMIT) :
    msgs.foldl apiHistoryAppend h = lastN API_HISTORY_LIMIT (h ++ msgs) := by
  induction msgs generalizing h with
  | nil => simpa using (lastN_of_length_le _ h hh).symm
  | cons m ms ih =>
    have h1 : (apiHistoryAppend h m).length ≤ API_HISTORY_LIMIT :=
      length_apiHistoryAppend_le h m
    calc (m :: ms).foldl apiHistoryAppend h
        = ms.foldl apiHistoryAppend (apiHistoryAppend h m) := rfl
      _ = lastN API_HISTORY_LIMIT (apiHistoryAppend h m ++ ms) := ih _ h1
      _ = lastN API_HISTORY_LIMIT (lastN API_HISTORY_LIMIT (h ++ [m]) ++ ms) := by
          rw [apiHistoryAppend_eq_lastN h m]
      _ = lastN API_HISTORY_LIMIT ((h ++ [m]) ++ ms) := lastN_lastN_append _ _ _
      _ = lastN API_HISTORY_LIMIT (h ++ m :: ms) := by simp

/-!
## Session store (`src/core/sessions.js`)
-/

/-- A session object as built by `createSession` (sessions.js lines 67-77).
`sessionNumber = 0` models a missing/falsy `sessionNumber` (the code reads it
as `s.sessionNumber || 0`).  `mode = none` models `null`. -/
structure Session where
  id : String
  name : Option String
  sessionNumber : Nat
  selectedAIs : List String
  mode : Option String
  chatUrls : List (String × String)
  apiChatHistory : List (String × List ChatMsg)
  promptDraft : String
  createdAt : Nat
deriving DecidableEq, Repr

/-- The sessions module state (sessions.js lines 23-26): the `sessions` array,
`currentSessionId` and `sessionCounter` module variables. -/
structure SessionsState where
  sessions : List Session
  currentSessionId : Option String
  sessionCounter : Nat
deriving DecidableEq, Repr

/-- `createSession(name, selectedAIsSet, mode)` (sessions.js lines 47-78).
`now` models `Date.now()`; `storedDefaultMode` models
`localStorage.getItem(STORAGE_KEYS.DEFAULT_MODE)`.  Returns the new session
object together with the module state after the call (`sessionCounter++` is
the only module-state effect). -/
def createSession (st : SessionsState) (now : Nat) (name : Option String)
    (selectedAIs : List String) (mode : Option String)
    (storedDefaultMode : Option String) : Session × SessionsState :=
  let counter := st.sessionCounter + 1
  let existingNumbers := (st.sessions.map (fun s => s.sessionNumber)).filter
    (fun n => decide (0 < n))
  let nextNumber := if existingNumbers.isEmpty then 1
    else existingNumbers.foldl Nat.max 0 + 1
  let initialMode : Option String :=
    match mode with
    | some m => some m
    | none =>
      match storedDefaultMode with
      | some d => if d = "ask" then none else some d
      | none => none
  ({ id := "session-" ++ toString now ++ "-" ++ toString counter
   , name := name
   , sessionNumber := nextNumber
   , selectedAIs := selectedAIs
   , mode := initialMode
   , chatUrls := []
   , apiChatHistory := []
   , promptDraft := ""
   , createdAt := now },
   { st with sessionCounter := counter })

/-- The spec's assignment rule, from its words: the smallest positive integer
not currently used as `sessionNumber` by any live session.  Used only to
compare the spec's rule against `createSession`. -/
def smallestUnusedSessionNumber (sessions : List Session) : Nat :=
  (((List.range (sessions.length + 1)).map (fun n => n + 1)).find?
    (fun n => ! sessions.any (fun s => s.sessionNumber == n))).getD 0

/-!
## API chat history writes (api-chat module, `saveApiHistory`)
-/

/-- Read `obj[key]` on a string-keyed JS object modelled as an association
list (first binding wins); `[]` models an absent key
(`obj[key] || []`). -/
def histLookup (m : List (String × List ChatMsg)) (k : String) : List ChatMsg :=
  match m with
  | [] => []
  | p :: rest => if p.1 = k then p.2 else histLookup rest k

/-- Write `obj[key] = v` on a string-keyed JS object: replace the first
binding for `key`, or add one. -/
def histSet (m : List (String × List ChatMsg)) (k : String)
    (v : List ChatMsg) : List (String × List ChatMsg) :=
  match m with
  | [] => [(k, v)]
  | p :: rest => if p.1 = k then (k, v) :: rest else p :: histSet rest k v

/-- Apply `f` to the first session whose `id` is `sid` (JS
`sessionsArray.find(s => s.id === targetSessionId)` followed by in-place
mutation of the found object); no-op when none matches. -/
def updateFirstSession (l : List Session) (sid : String)
    (f : Session → Session) : List Session :=
  match l with
  | [] => []
  | s :: rest =>
    if s.id = sid then f s :: rest else s :: updateFirstSession rest sid f

/-- `saveApiHistory(aiKey, role, content, sessionId)` (api-chat module lines
215-240): resolve `targetSessionId = sessionId || getCurrentSessionId()`, find
that session, push `{role, content}` onto its history for `aiKey` and enforce
the sliding-window limit.  The trailing `saveSessionsToStorage()` only writes
to the adapter and does not change this state. -/
def saveApiHistory (st : SessionsState) (aiKey role content : String)
    (sessionId : Option String) : SessionsState :=
  let target : Option String :=
    match sessionId with
    | some s => some s
    | none => st.currentSessionId
  match target with
  | none => st
  | some tid =>
    { st with
      sessions := updateFirstSession st.sessions tid (fun s =>
        { s with
          apiChatHistory :=
            histSet s.apiChatHistory aiKey
              (apiHistoryAppend (histLookup s.apiChatHistory aiKey)
                { role := role, content := content }) }) }

/-- `sessionsArray.find(s => s.id === sid)` (first session with this id). -/
def findSession (l : List Session) (sid : String) : Option Session :=
  match l with
  | [] => none
  | s :: rest => if s.id = sid then some s else findSession rest sid

/-- The history list the UI reads for `(sid, aiKey)`:
`session?.apiChatHistory?.[aiKey] || []` with the session found by id. -/
def getHistoryOf (st : SessionsState) (sid : String) (aiKey : String) :
    List ChatMsg :=
  match findSession st.sessions sid with
  | some s => histLookup s.apiChatHistory aiKey
  | none => []

/-- `setCurrentSessionId` (sessions.js lines 108-110), the state change of
switching to another session tab. -/
def setCurrentSessionId (st : SessionsState) (sid : String) : SessionsState :=
  { st with currentSessionId := some sid }

/-!
## Persistence: quota recovery and load (`src/core/sessions.js`)
-/

/-- `DEFAULT_CONFIG.maxHistoryPerAI` (sessions.js line 20): retention floor
used when trimming histories during quota recovery. -/
def maxHistoryPerAI : Nat := 6

/-- The per-history step of `trimAllApiHistory`: a history longer than
`maxMessages` becomes `history.slice(-maxMessages)`, otherwise unchanged. -/
def trimHist (maxMessages : Nat) (h : List ChatMsg) : List ChatMsg :=
  if maxMessages < h.length then lastN maxMessages h else h

/-- `trimAllApiHistory(maxMessages)` (sessions.js lines 263-279): trim every
session's every service history down to its most recent `maxMessages`
entries; returns the new state and the `freed` flag (true iff some history
was longer than `maxMessages`). -/
def trimAllApiHistory (st : SessionsState) (maxMessages : Nat) :
    SessionsState × Bool :=
  let freed := st.sessions.any (fun s =>
    s.apiChatHistory.any (fun p => decide (maxMessages < p.2.length)))
  ({ st with sessions := st.sessions.map (fun s =>
      { s with apiChatHistory := s.apiChatHistory.map (fun p =>
          (p.1, trimHist maxMessages p.2)) }) },
   freed)

/-- Outcome of one `localStorage.setItem` write attempt by the adapter. -/
inductive SaveOutcome where
  | success
  | quotaError
  | otherError
deriving DecidableEq, Repr

/-- Result of `saveSessionsToStorage`: the module state afterwards, how many
retry writes were attempted, and whether an error escaped to the caller. -/
structure SaveResult where
  state : SessionsState
  retries : Nat
  threw : Bool
deriving DecidableEq, Repr

/-- `saveSessionsToStorage` (sessions.js lines 163-201) with the adapter's
behaviour abstracted as the outcomes of the first write and of the retry
write.  On a quota error it runs `trimAllApiHistory()` and retries the write
once only if `freed`; every error is caught and logged, never rethrown (the
retry outcome is only logged, so it does not affect the module state). -/
def saveSessionsToStorage (st : SessionsState)
    (firstAttempt _retryAttempt : SaveOutcome) : SaveResult :=
  match firstAttempt with
  | .success => { state := st, retries := 0, threw := false }
  | .otherError => { state := st, retries := 0, threw := false }
  | .quotaError =>
    if (trimAllApiHistory st maxHistoryPerAI).2 then
      { state := (trimAllApiHistory st maxHistoryPerAI).1, retries := 1,
        threw := false }
    else
      { state := (trimAllApiHistory st maxHistoryPerAI).1, retries := 0,
        threw := false }

/-- The history stored for service `k` of the session at position `i`
(`[]` when the index or key is absent); used to state trimming pointwise. -/
def getHistAt (st : SessionsState) (i : Nat) (k : String) : List ChatMsg :=
  match st.sessions[i]? with
  | some s => histLookup s.apiChatHistory k
  | none => []

/-- The `sessions.forEach((session, index) => ...)` repair loop of
`loadSessionsFromStorage` (sessions.js lines 249-253), started at index `i`:
a falsy `sessionNumber` becomes `index + 1`. -/
def repairSessionNumbers (i : Nat) : List Session → List Session
  | [] => []
  | s :: rest =>
    (if s.sessionNumber = 0 then { s with sessionNumber := i + 1 } else s) ::
      repairSessionNumbers (i + 1) rest

/-- The read-and-parse phase of `loadSessionsFromStorage` (sessions.js lines
214-230): `none` models an absent `SESSIONS` key (module state untouched),
`some (.error ())` a present value on which `JSON.parse` throws (the error is
caught, `sessions` is reset to `[]`, and the `currentSessionId` /
`sessionCounter` reads are skipped), `some (.ok l)` a value parsing to `l`. -/
def loadParsePhase (st0 : SessionsState)
    (storedSessions : Option (Except Unit (List Session)))
    (storedCurrent : Option String) (storedCounter : Nat) : SessionsState :=
  match storedSessions with
  | none => st0
  | some (Except.ok l) =>
    { sessions := l, currentSessionId := storedCurrent,
      sessionCounter := storedCounter }
  | some (Except.error _) => { st0 with sessions := [] }

/-- The validity test `sessions.find(s => s.id === currentSessionId)` of
sessions.js line 240: a `null` current id matches no session. -/
def currentSessionValid (st1 : SessionsState) : Bool :=
  match st1.currentSessionId with
  | some cid => (findSession st1.sessions cid).isSome
  | none => false

/-- The repair phase of `loadSessionsFromStorage` (sessions.js lines
232-246): an empty list is replaced by one default session which becomes
current (its `saveSessionsToStorage()` call only writes to the adapter); a
current-id matching no session is repaired to the first session's id. -/
def loadRepairPhase (st1 : SessionsState) (now : Nat)
    (defaultServices : List String) (defaultMode : String) : SessionsState :=
  if st1.sessions.isEmpty then
    let created := createSession st1 now none defaultServices
      (some defaultMode) none
    { created.2 with
      sessions := [created.1],
      currentSessionId := some created.1.id }
  else
    if currentSessionValid st1 then st1
    else { st1 with
      currentSessionId := st1.sessions.head?.map (fun s => s.id) }

/-- `loadSessionsFromStorage(options)` (sessions.js lines 210-256): parse,
repair emptiness and the current pointer, then give every session with a
falsy `sessionNumber` the number `index + 1`. -/
def loadSessionsFromStorage (st0 : SessionsState)
    (storedSessions : Option (Except Unit (List Session)))
    (storedCurrent : Option String) (storedCounter : Nat) (now : Nat)
    (defaultServices : List String) (defaultMode : String) : SessionsState :=
  let st2 := loadRepairPhase
    (loadParsePhase st0 storedSessions storedCurrent storedCounter)
    now defaultServices defaultMode
  { st2 with sessions := repairSessionNumbers 0 st2.sessions }

/-!
## Tab action (`src/core/tabs.js`)
-/

/-- `createNewSessionAndSwitch()` (tabs.js lines 352-378): refuse when 20 or
more sessions exist (alert only); otherwise create an empty session, append
it, and make it current.  The `saveSessionsToStorage()` calls only write to
the adapter. -/
def createNewSessionAndSwitch (st : SessionsState) (now : Nat)
    (storedDefaultMode : Option String) : SessionsState :=
  if 20 ≤ st.sessions.length then st
  else
    let created := createSession st now none [] none storedDefaultMode
    { created.2 with
      sessions := created.2.sessions ++ [created.1],
      currentSessionId := some created.1.id }

/-!
## Resizable layout engine (resizer module) — divider drags
-/

/-- The candidate-size computation of `onResize(e)` (resizer module lines
600-638) for a linear divider drag: candidates `current + delta` and
`next - delta`, then the two sequential minimum-size clamps (the second test
reads the value updated by the first).  Sizes are pixel extents, modelled as
rationals. -/
def onResize (current next delta : ℚ) : ℚ × ℚ :=
  let minSize : ℚ := 150
  let newCurrentSize := current + delta
  let newNextSize := next - delta
  let afterFirst : ℚ × ℚ :=
    if newCurrentSize < minSize then (minSize, current + next - minSize)
    else (newCurrentSize, newNextSize)
  if afterFirst.2 < minSize then (current + next - minSize, minSize)
  else afterFirst

/-- `onGridResize(e)` (resizer module lines 323-360) for the divider between
column/row `index` and `index + 1`: the same candidate-and-clamp computation
as `onResize`, written back into the copied sizes array at `index` and
`index + 1`. -/
def onGridResize (startSizes : List ℚ) (index : Nat) (delta : ℚ) : List ℚ :=
  let s1 := startSizes[index]?.getD 0
  let s2 := startSizes[index + 1]?.getD 0
  (startSizes.set index (onResize s1 s2 delta).1).set (index + 1)
    (onResize s1 s2 delta).2

/-!
## Layout topology switching (layout module + resizer module)
-/

/-- Layout topology: the `layout-{mode}` class on the `webviewGrid` element. -/
inductive LayoutMode where
  | horizontal
  | vertical
  | grid
deriving DecidableEq, Repr

/-- The three persisted size records, one per topology: the values stored
under `oneprompt-wrapper-sizes-{mode}` in `localStorage` (`none` = key
absent).  Record contents are kept as their raw JSON strings; the claims
only concern their presence and identity. -/
structure SizeStore where
  horizontalSizes : Option String
  verticalSizes : Option String
  gridSizes : Option String
deriving DecidableEq, Repr

/-- `localStorage.getItem(getStorageKey())` for a given mode. -/
def SizeStore.record (store : SizeStore) : LayoutMode → Option String
  | .horizontal => store.horizontalSizes
  | .vertical => store.verticalSizes
  | .grid => store.gridSizes

/-- `localStorage.removeItem(getStorageKey())` for a given mode. -/
def SizeStore.remove (store : SizeStore) : LayoutMode → SizeStore
  | .horizontal => { store with horizontalSizes := none }
  | .vertical => { store with verticalSizes := none }
  | .grid => { store with gridSizes := none }

/-- The resizer-relevant UI state: the current topology (read by
`getCurrentLayoutMode()` from the grid element's class), the applied visual
overrides (custom wrapper flex weights and grid template; `none` = no
override, i.e. equal distribution), and the persisted size records. -/
structure LayoutState where
  currentMode : LayoutMode
  appliedFlex : Option String
  appliedGridTemplate : Option String
  store : SizeStore
deriving DecidableEq, Repr

/-- `clearSizes()` (resizer module lines 507-527): reset every wrapper's
flex/min-size styles and the grid template (back to equal distribution), and
remove the current topology's persisted record. -/
def clearSizes (st : LayoutState) : LayoutState :=
  { st with
    appliedFlex := none,
    appliedGridTemplate := none,
    store := st.store.remove st.currentMode }

/-- `restoreSizes()` (resizer module lines 482-502, with `restoreGridSizes`
lines 437-454): read the current topology's stored record and apply it (grid
template for grid mode, flex weights otherwise); nothing is applied when no
record is stored. -/
def restoreSizes (st : LayoutState) : LayoutState :=
  match st.currentMode with
  | .grid =>
    match st.store.record .grid with
    | some r => { st with appliedGridTemplate := some r }
    | none => st
  | m =>
    match st.store.record m with
    | some r => { st with appliedFlex := some r }
    | none => st

/-- `onLayoutModeChange()` (resizer module lines 735-757): remove the
resizer handles (no state here), `clearSizes()`, then after a timeout
`initResizers()`, whose last step is `restoreSizes()`. -/
def onLayoutModeChange (st : LayoutState) : LayoutState :=
  restoreSizes (clearSizes st)

/-- `setLayoutMode(mode)` (layout module lines 35-47): persist the mode,
apply the `layout-{mode}` class (so `getCurrentLayoutMode()` now returns the
new mode), then call the resizer's `onLayoutModeChange()`. -/
def setLayoutMode (st : LayoutState) (mode : LayoutMode) : LayoutState :=
  onLayoutModeChange { st with currentMode := mode }

/-!
## Panel multiplexer (`renderWebviews`, `src/renderer.js`)
-/

/-- A cached panel for one `(sessionId, serviceKey)` pair: the entry of
`webviewInstances[sessionId][aiKey]`.  `contentMode` is the kind of content
it holds (an `.api-panel` for `"api"`, a `webview` for `"web"`); `instId`
distinguishes physically distinct constructions. -/
structure PanelInstance where
  contentMode : String
  instId : Nat
deriving DecidableEq, Repr

/-- The per-(session, service) step of `renderWebviews` (renderer.js lines
1556-1635): with no cached panel, construct one matching `mode` and cache it;
with a cached panel whose content matches `mode`, reuse it unchanged; with a
cached panel of the other kind, discard it and construct a replacement
matching `mode`.  `fresh` is a supply of construction identities; the `Bool`
reports whether a new panel was constructed. -/
def getOrCreate (cached : Option PanelInstance) (mode : String)
    (fresh : Nat) : PanelInstance × Nat × Bool :=
  match cached with
  | none => ({ contentMode := mode, instId := fresh }, fresh + 1, true)
  | some p =>
    if p.contentMode = mode then (p, fresh, false)
    else ({ contentMode := mode, instId := fresh }, fresh + 1, true)

/-!
## Helper lemmas
-/

theorem le_foldl_max (a : Nat) (l : List Nat) : a ≤ l.foldl Nat.max a := by
  induction l generalizing a with
  | nil => exact Nat.le_refl a
  | cons x xs ih => exact Nat.le_trans (Nat.le_max_left a x) (ih (Nat.max a x))

theorem mem_le_foldl_max (a x : Nat) (l : List Nat) (hx : x ∈ l) :
    x ≤ l.foldl Nat.max a := by
  induction l generalizing a with
  | nil => cases hx
  | cons y ys ih =>
    cases hx with
    | head => exact Nat.le_trans (Nat.le_max_right a x) (le_foldl_max _ ys)
    | tail _ h => exact ih (Nat.max a y) h

theorem foldl_max_le (a b : Nat) (l : List Nat) (ha : a ≤ b)
    (hl : ∀ x ∈ l, x ≤ b) : l.foldl Nat.max a ≤ b := by
  induction l generalizing a with
  | nil => exact ha
  | cons y ys ih =>
    exact ih (Nat.max a y)
      (Nat.max_le.mpr ⟨ha, hl y (List.mem_cons_self y ys)⟩)
      (fun x hx => hl x (List.mem_cons_of_mem y hx))

/-- A concrete session value for counterexamples and witnesses. -/
def testSession (sid : String) (n : Nat)
    (hist : List (String × List ChatMsg)) : Session :=
  { id := sid, name := none, sessionNumber := n, selectedAIs := [],
    mode := none, chatUrls := [], apiChatHistory := hist, promptDraft := "",
    createdAt := 0 }

/-!
## C1 — sessionNumber assignment
-/

/-- C1 counterexample: the claim says `createSession` gap-fills (smallest
positive integer not in use).  With live sessions numbered 1 and 3 (session 2
was closed), the code assigns `max + 1 = 4`, not the smallest unused
number 2. -/
theorem createSession_not_gap_filling :
    (createSession
      ⟨[testSession "session-0-1" 1 [], testSession "session-0-3" 3 []],
        some "session-0-1", 3⟩ 100 none [] none none).1.sessionNumber = 4 ∧
    smallestUnusedSessionNumber
      [testSession "session-0-1" 1 [], testSession "session-0-3" 3 []] = 2 ∧
    (4 : Nat) ≠ 2 := by
  refine ⟨by decide, by decide, by decide⟩

/-- C1 (amended): `createSession` assigns the smallest positive integer
strictly greater than every live session's `sessionNumber` (`max + 1`, or 1
when no live session has a positive number) — so a closed session's number is
reused only when it was the highest. -/
theorem createSession_number_succ_of_max (st : SessionsState) (now : Nat)
    (nm : Option String) (sel : List String) (md dm : Option String) :
    0 < (createSession st now nm sel md dm).1.sessionNumber ∧
    (∀ s ∈ st.sessions,
      s.sessionNumber < (createSession st now nm sel md dm).1.sessionNumber) ∧
    (∀ m : Nat, 0 < m → (∀ s ∈ st.sessions, s.sessionNumber < m) →
      (createSession st now nm sel md dm).1.sessionNumber ≤ m) := by
  have hval : (createSession st now nm sel md dm).1.sessionNumber =
      (if ((st.sessions.map (fun s => s.sessionNumber)).filter
            (fun n => decide (0 < n))).isEmpty then 1
        else ((st.sessions.map (fun s => s.sessionNumber)).filter
            (fun n => decide (0 < n))).foldl Nat.max 0 + 1) := rfl
  set nums := (st.sessions.map (fun s => s.sessionNumber)).filter
    (fun n => decide (0 < n)) with hnums
  by_cases hE : nums.isEmpty
  · have h1 : (createSession st now nm sel md dm).1.sessionNumber = 1 := by
      rw [hval, if_pos hE]
    have hzero : ∀ s ∈ st.sessions, s.sessionNumber = 0 := by
      intro s hs
      by_contra hne
      have hpos : 0 < s.sessionNumber := Nat.pos_of_ne_zero hne
      have hmem : s.sessionNumber ∈ nums := by
        rw [hnums]
        exact List.mem_filter.mpr
          ⟨List.mem_map.mpr ⟨s, hs, rfl⟩, by simpa using hpos⟩
      rw [List.isEmpty_iff] at hE
      rw [hE] at hmem
      cases hmem
    refine ⟨by rw [h1]; exact Nat.one_pos, ?_, ?_⟩
    · intro s hs
      rw [h1, hzero s hs]
      exact Nat.one_pos
    · intro m hm _
      rw [h1]
      exact hm
  · have h1 : (createSession st now nm sel md dm).1.sessionNumber =
        nums.foldl Nat.max 0 + 1 := by
      rw [hval, if_neg hE]
    refine ⟨by rw [h1]; exact Nat.succ_pos _, ?_, ?_⟩
    · intro s hs
      rw [h1]
      by_cases hz : s.sessionNumber = 0
      · rw [hz]; exact Nat.succ_pos _
      · have hmem : s.sessionNumber ∈ nums := by
          rw [hnums]
          exact List.mem_filter.mpr
            ⟨List.mem_map.mpr ⟨s, hs, rfl⟩,
              by simpa using Nat.pos_of_ne_zero hz⟩
        exact Nat.lt_succ_of_le (mem_le_foldl_max 0 _ nums hmem)
    · intro m hm hlt
      rw [h1]
      have hb : ∀ x ∈ nums, x ≤ m - 1 := by
        intro x hx
        rw [hnums] at hx
        obtain ⟨hxm, _⟩ := List.mem_filter.mp hx
        obtain ⟨s, hs, hsx⟩ := List.mem_map.mp hxm
        have := hlt s hs
        omega
      have := foldl_max_le 0 (m - 1) nums (Nat.zero_le _) hb
      omega

/-- C1 witness: with live numbers 1 and 3 the assigned number 4 is positive,
above both, and minimal among integers above both. -/
theorem createSession_number_succ_of_max_witness :
    0 < (createSession
      ⟨[testSession "a" 1 [], testSession "b" 3 []], none, 3⟩
      7 none [] none none).1.sessionNumber ∧
    (createSession ⟨[testSession "a" 1 [], testSession "b" 3 []], none, 3⟩
      7 none [] none none).1.sessionNumber ≤ 4 :=
  ⟨(createSession_number_succ_of_max
      ⟨[testSession "a" 1 [], testSession "b" 3 []], none, 3⟩
      7 none [] none none).1,
   (createSession_number_succ_of_max
      ⟨[testSession "a" 1 [], testSession "b" 3 []], none, 3⟩
      7 none [] none none).2.2 4 (by decide)
      (by
        intro s hs
        fin_cases hs <;> decide)⟩

/-!
## C3 — bounded sliding-window history
-/

/-- C3: each `saveApiHistory` append leaves at most
`API_HISTORY_LIMIT = 12` entries, and a run of appends keeps exactly the most
recent 12 in order (drop-oldest). -/
theorem apiHistory_sliding_window (h : List ChatMsg) (m : ChatMsg)
    (msgs : List ChatMsg) :
    API_HISTORY_LIMIT = 12 ∧
    (apiHistoryAppend h m).length ≤ API_HISTORY_LIMIT ∧
    (h.length ≤ API_HISTORY_LIMIT →
      msgs.foldl apiHistoryAppend h = lastN API_HISTORY_LIMIT (h ++ msgs)) :=
  ⟨rfl, length_apiHistoryAppend_le h m, foldl_apiHistoryAppend msgs h⟩

/-- C3 witness: appending 14 messages to an empty history leaves exactly the
last 12 of them, in order. -/
theorem apiHistory_sliding_window_witness :
    ((List.range 14).map
        (fun i => ChatMsg.mk "user" (toString i))).foldl apiHistoryAppend [] =
      lastN API_HISTORY_LIMIT
        ([] ++ (List.range 14).map (fun i => ChatMsg.mk "user" (toString i))) :=
  (apiHistory_sliding_window [] (ChatMsg.mk "user" "x")
    ((List.range 14).map (fun i => ChatMsg.mk "user" (toString i)))).2.2
    (by decide)

/-!
## C9 — createSession's effect on the module state
-/

/-- C9 counterexample: `createSession` is not pure construction — it
increments the store's `sessionCounter`, so the module state after the call
differs from the state before it. -/
theorem createSession_changes_state :
    (createSession ⟨[], none, 0⟩ 5 none [] none none).2 ≠
      (⟨[], none, 0⟩ : SessionsState) ∧
    (createSession ⟨[], none, 0⟩ 5 none [] none none).2.sessionCounter = 1 ∧
    (⟨[], none, 0⟩ : SessionsState).sessionCounter = 0 := by
  refine ⟨by decide, rfl, rfl⟩

/-- C9 (amended): `createSession` leaves the session list and the
current-session pointer unchanged and writes nothing to the persistence
adapter, but it does mutate the store: `sessionCounter` is incremented (and
flows into the new session's id). -/
theorem createSession_effect (st : SessionsState) (now : Nat)
    (nm : Option String) (sel : List String) (md dm : Option String) :
    (createSession st now nm sel md dm).2.sessions = st.sessions ∧
    (createSession st now nm sel md dm).2.currentSessionId =
      st.currentSessionId ∧
    (createSession st now nm sel md dm).2.sessionCounter =
      st.sessionCounter + 1 :=
  ⟨rfl, rfl, rfl⟩

/-!
## C10 — 20-session cap on the new-tab action
-/

/-- C10: `createNewSessionAndSwitch` is a no-op on a list of 20 or more
sessions, so the operation never grows the list beyond 20. -/
theorem createNewSessionAndSwitch_capped (st : SessionsState) (now : Nat)
    (dm : Option String) :
    (20 ≤ st.sessions.length → createNewSessionAndSwitch st now dm = st) ∧
    (createNewSessionAndSwitch st now dm).sessions.length ≤
      Nat.max st.sessions.length 20 := by
  constructor
  · intro h
    rw [createNewSessionAndSwitch, if_pos h]
  · by_cases h : 20 ≤ st.sessions.length
    · rw [createNewSessionAndSwitch, if_pos h]
      exact Nat.le_max_left _ _
    · rw [createNewSessionAndSwitch, if_neg h]
      have h1 : st.sessions.length < 20 := Nat.lt_of_not_le h
      show (st.sessions ++ [(createSession st now none [] none dm).1]).length ≤
        Nat.max st.sessions.length 20
      rw [List.length_append, List.length_singleton]
      exact Nat.le_trans (by omega) (Nat.le_max_right st.sessions.length 20)

/-- C10 witness: with exactly 20 sessions the action changes nothing. -/
theorem createNewSessionAndSwitch_capped_witness :
    createNewSessionAndSwitch
      ⟨List.replicate 20 (testSession "s" 1 []), none, 0⟩ 0 none =
      ⟨List.replicate 20 (testSession "s" 1 []), none, 0⟩ :=
  (createNewSessionAndSwitch_capped
    ⟨List.replicate 20 (testSession "s" 1 []), none, 0⟩ 0 none).1 (by simp)

/-!
## C5 — quota recovery
-/

theorem histLookup_map_values (g : List ChatMsg → List ChatMsg)
    (hg : g [] = []) (m : List (String × List ChatMsg)) (k : String) :
    histLookup (m.map (fun p => (p.1, g p.2))) k = g (histLookup m k) := by
  induction m with
  | nil => simpa [histLookup] using hg.symm
  | cons p rest ih =>
    by_cases hk : p.1 = k
    · simp [histLookup, hk]
    · simpa [histLookup, hk] using ih

theorem trimHist_nil (maxM : Nat) : trimHist maxM [] = [] := by
  simp [trimHist]

theorem getHistAt_trimAll (st : SessionsState) (maxM : Nat) (i : Nat)
    (k : String) :
    getHistAt (trimAllApiHistory st maxM).1 i k =
      trimHist maxM (getHistAt st i k) := by
  unfold getHistAt trimAllApiHistory
  cases hs : st.sessions[i]? with
  | none => simp [List.getElem?_map, hs, trimHist_nil]
  | some s =>
    simp only [List.getElem?_map, hs, Option.map_some]
    exact histLookup_map_values (trimHist maxM) (trimHist_nil maxM)
      s.apiChatHistory k

/-- C5 counterexample: the claim says a quota error always leads to exactly
one retry.  With every history at or below the 6-message floor, trimming
frees nothing and the code does not retry at all. -/
theorem save_quota_no_retry_when_nothing_to_trim :
    (saveSessionsToStorage
      ⟨[testSession "s1" 1 [("x", [⟨"user", "hi"⟩])]], some "s1", 1⟩
      SaveOutcome.quotaError SaveOutcome.quotaError).retries = 0 ∧
    (0 : Nat) ≠ 1 ∧
    (saveSessionsToStorage
      ⟨[testSession "s1" 1 [("x", [⟨"user", "hi"⟩])]], some "s1", 1⟩
      SaveOutcome.quotaError SaveOutcome.quotaError).threw = false := by
  refine ⟨by decide, by decide, by decide⟩

/-- C5 (amended): on a quota error, `saveSessionsToStorage` trims every
(session, service) history longer than the 6-message retention floor down to
its most recent 6 entries, leaves shorter histories unchanged, retries the
write exactly once when trimming freed something and not at all otherwise,
and never lets the error escape (it is logged as a non-fatal warning). -/
theorem save_quota_recovery (st : SessionsState) (retryA : SaveOutcome) :
    maxHistoryPerAI = 6 ∧
    (saveSessionsToStorage st SaveOutcome.quotaError retryA).threw = false ∧
    (∀ i : Nat, ∀ k : String,
      getHistAt (saveSessionsToStorage st SaveOutcome.quotaError retryA).state
          i k =
        (if maxHistoryPerAI < (getHistAt st i k).length then
          lastN maxHistoryPerAI (getHistAt st i k)
        else getHistAt st i k)) ∧
    ((saveSessionsToStorage st SaveOutcome.quotaError retryA).retries =
      if st.sessions.any (fun s => s.apiChatHistory.any
          (fun p => decide (maxHistoryPerAI < p.2.length))) then 1 else 0) := by
  have hstate :
      (saveSessionsToStorage st SaveOutcome.quotaError retryA).state =
        (trimAllApiHistory st maxHistoryPerAI).1 := by
    rw [saveSessionsToStorage]
    by_cases hf : (trimAllApiHistory st maxHistoryPerAI).2 <;> simp [hf]
  have hthrew :
      (saveSessionsToStorage st SaveOutcome.quotaError retryA).threw =
        false := by
    rw [saveSessionsToStorage]
    by_cases hf : (trimAllApiHistory st maxHistoryPerAI).2 <;> simp [hf]
  have hretry :
      (saveSessionsToStorage st SaveOutcome.quotaError retryA).retries =
        if (trimAllApiHistory st maxHistoryPerAI).2 then 1 else 0 := by
    rw [saveSessionsToStorage]
    by_cases hf : (trimAllApiHistory st maxHistoryPerAI).2 <;> simp [hf]
  refine ⟨rfl, hthrew, ?_, ?_⟩
  · intro i k
    rw [hstate, getHistAt_trimAll, trimHist]
  · rw [hretry]
    rfl

/-!
## C8 — load is self-healing
-/

theorem repairSessionNumbers_pos (i : Nat) (l : List Session) :
    ∀ s ∈ repairSessionNumbers i l, 0 < s.sessionNumber := by
  induction l generalizing i with
  | nil => intro s hs; cases hs
  | cons x xs ih =>
    intro s hs
    rw [repairSessionNumbers] at hs
    rcases List.mem_cons.mp hs with h | h
    · by_cases hx : x.sessionNumber = 0
      · rw [if_pos hx] at h
        rw [h]
        exact Nat.succ_pos i
      · rw [if_neg hx] at h
        rw [h]
        exact Nat.pos_of_ne_zero hx
    · exact ih (i + 1) s h

theorem repairSessionNumbers_ids (i : Nat) (l : List Session) :
    (repairSessionNumbers i l).map (fun s => s.id) =
      l.map (fun s => s.id) := by
  induction l generalizing i with
  | nil => rfl
  | cons x xs ih =>
    by_cases hx : x.sessionNumber = 0 <;>
      simp [repairSessionNumbers, hx, ih]

theorem repairSessionNumbers_ne_nil (i : Nat) (l : List Session)
    (h : l ≠ []) : repairSessionNumbers i l ≠ [] := by
  cases l with
  | nil => exact absurd rfl h
  | cons x xs => simp [repairSessionNumbers]

theorem findSession_eq_some (l : List Session) (sid : String) (s : Session)
    (h : findSession l sid = some s) : s ∈ l ∧ s.id = sid := by
  induction l with
  | nil => cases h
  | cons y ys ih =>
    rw [findSession] at h
    by_cases hy : y.id = sid
    · rw [if_pos hy] at h
      obtain rfl : y = s := by injection h
      exact ⟨List.mem_cons_self y ys, hy⟩
    · rw [if_neg hy] at h
      obtain ⟨hm, hid⟩ := ih h
      exact ⟨List.mem_cons_of_mem y hm, hid⟩

theorem loadRepairPhase_ok (st1 : SessionsState) (now : Nat)
    (defS : List String) (defM : String) :
    (loadRepairPhase st1 now defS defM).sessions ≠ [] ∧
    ∃ s ∈ (loadRepairPhase st1 now defS defM).sessions,
      (loadRepairPhase st1 now defS defM).currentSessionId = some s.id := by
  rw [loadRepairPhase]
  by_cases hE : st1.sessions.isEmpty
  · rw [if_pos hE]
    refine ⟨by simp, ?_⟩
    exact ⟨_, List.mem_singleton.mpr rfl, rfl⟩
  · rw [if_neg hE]
    have hne : st1.sessions ≠ [] := by
      intro hnil
      rw [List.isEmpty_iff] at hE
      exact hE hnil
    obtain ⟨x, xs, hxl⟩ : ∃ x xs, st1.sessions = x :: xs := by
      cases hl : st1.sessions with
      | nil => exact absurd hl hne
      | cons x xs => exact ⟨x, xs, rfl⟩
    by_cases hv : currentSessionValid st1
    · rw [if_pos hv]
      rw [currentSessionValid] at hv
      cases hc : st1.currentSessionId with
      | none => rw [hc] at hv; cases hv
      | some cid =>
        rw [hc] at hv
        obtain ⟨s, hs⟩ := Option.isSome_iff_exists.mp hv
        obtain ⟨hmem, hid⟩ := findSession_eq_some st1.sessions cid s hs
        exact ⟨hne, s, hmem, by rw [hid]⟩
    · rw [if_neg hv]
      refine ⟨hne, ?_⟩
      refine ⟨x, by rw [hxl]; exact List.mem_cons_self x xs, ?_⟩
      rw [hxl]
      rfl

/-- C8: whatever the adapter holds, `loadSessionsFromStorage` returns without
propagating a parse error (it is a total function of the parse result), with
a non-empty session list, every session carrying a positive
`sessionNumber`, and a current-session pointer that resolves to a member of
the list. -/
theorem load_self_healing (st0 : SessionsState)
    (stored : Option (Except Unit (List Session)))
    (cur : Option String) (cnt : Nat) (now : Nat)
    (defS : List String) (defM : String) :
    (loadSessionsFromStorage st0 stored cur cnt now defS defM).sessions ≠
      [] ∧
    (∀ s ∈ (loadSessionsFromStorage st0 stored cur cnt now defS
        defM).sessions, 0 < s.sessionNumber) ∧
    ∃ s ∈ (loadSessionsFromStorage st0 stored cur cnt now defS
        defM).sessions,
      (loadSessionsFromStorage st0 stored cur cnt now defS
        defM).currentSessionId = some s.id := by
  obtain ⟨h1, s, hmem, hcur⟩ := loadRepairPhase_ok
    (loadParsePhase st0 stored cur cnt) now defS defM
  set st2 := loadRepairPhase (loadParsePhase st0 stored cur cnt) now defS
    defM with hst2
  have hload : loadSessionsFromStorage st0 stored cur cnt now defS defM =
      { st2 with sessions := repairSessionNumbers 0 st2.sessions } := rfl
  rw [hload]
  refine ⟨repairSessionNumbers_ne_nil 0 st2.sessions h1,
    repairSessionNumbers_pos 0 st2.sessions, ?_⟩
  have hidmem : s.id ∈ (repairSessionNumbers 0 st2.sessions).map
      (fun t => t.id) := by
    rw [repairSessionNumbers_ids]
    exact List.mem_map.mpr ⟨s, hmem, rfl⟩
  obtain ⟨t, htmem, htid⟩ := List.mem_map.mp hidmem
  exact ⟨t, htmem, by rw [hcur, htid]⟩

/-!
## C4 — responses land in the session captured at dispatch time
-/

theorem histLookup_histSet_same (m : List (String × List ChatMsg))
    (k : String) (v : List ChatMsg) : histLookup (histSet m k v) k = v := by
  induction m with
  | nil => simp [histSet, histLookup]
  | cons p rest ih =>
    by_cases hk : p.1 = k
    · simp [histSet, hk, histLookup]
    · simp [histSet, hk, histLookup, ih]

theorem findSession_updateFirst (l : List Session) (sid : String)
    (f : Session → Session) (hf : ∀ s, (f s).id = s.id) :
    findSession (updateFirstSession l sid f) sid =
      (findSession l sid).map f := by
  induction l with
  | nil => rfl
  | cons s rest ih =>
    by_cases hs : s.id = sid
    · simp [updateFirstSession, findSession, hs, hf s]
    · simp [updateFirstSession, findSession, hs, ih]

theorem findSession_updateFirst_ne (l : List Session) (sid sid' : String)
    (f : Session → Session) (hf : ∀ s, (f s).id = s.id)
    (hne : sid' ≠ sid) :
    findSession (updateFirstSession l sid f) sid' = findSession l sid' := by
  induction l with
  | nil => rfl
  | cons s rest ih =>
    rw [updateFirstSession]
    by_cases hs : s.id = sid
    · have h1 : ¬(f s).id = sid' := by
        rw [hf s, hs]
        exact fun hx => hne hx.symm
      have h2 : ¬s.id = sid' := by
        rw [hs]
        exact fun hx => hne hx.symm
      rw [if_pos hs, findSession, findSession, if_neg h1, if_neg h2]
    · rw [if_neg hs, findSession, findSession]
      by_cases ht : s.id = sid'
      · rw [if_pos ht, if_pos ht]
      · rw [if_neg ht, if_neg ht, ih]

/-- The session-mutating closure passed in `saveApiHistory`. -/
def saveHistFun (aiKey role content : String) (s : Session) : Session :=
  { s with
    apiChatHistory :=
      histSet s.apiChatHistory aiKey
        (apiHistoryAppend (histLookup s.apiChatHistory aiKey)
          { role := role, content := content }) }

theorem saveHistFun_id (aiKey role content : String) (s : Session) :
    (saveHistFun aiKey role content s).id = s.id := rfl

theorem saveApiHistory_some (st : SessionsState) (aiKey role content : String)
    (tid : String) :
    saveApiHistory st aiKey role content (some tid) =
      { st with
        sessions := updateFirstSession st.sessions tid
          (saveHistFun aiKey role content) } := rfl

theorem getHistoryOf_save_same (st : SessionsState)
    (tid aiKey role content : String)
    (h : (findSession st.sessions tid).isSome) :
    getHistoryOf (saveApiHistory st aiKey role content (some tid)) tid aiKey =
      apiHistoryAppend (getHistoryOf st tid aiKey)
        { role := role, content := content } := by
  obtain ⟨s, hs⟩ := Option.isSome_iff_exists.mp h
  rw [saveApiHistory_some, getHistoryOf]
  show (match findSession (updateFirstSession st.sessions tid
      (saveHistFun aiKey role content)) tid with
    | some s => histLookup s.apiChatHistory aiKey
    | none => []) = _
  rw [findSession_updateFirst st.sessions tid _ (saveHistFun_id aiKey role
    content), hs]
  show histLookup (saveHistFun aiKey role content s).apiChatHistory aiKey = _
  rw [saveHistFun]
  show histLookup (histSet s.apiChatHistory aiKey _) aiKey = _
  rw [histLookup_histSet_same, getHistoryOf, hs]

theorem getHistoryOf_save_other (st : SessionsState)
    (tid tid' aiKey k role content : String) (hne : tid' ≠ tid) :
    getHistoryOf (saveApiHistory st aiKey role content (some tid)) tid' k =
      getHistoryOf st tid' k := by
  rw [saveApiHistory_some, getHistoryOf, getHistoryOf]
  rw [show ({ st with
      sessions := updateFirstSession st.sessions tid
        (saveHistFun aiKey role content) } : SessionsState).sessions =
    updateFirstSession st.sessions tid (saveHistFun aiKey role content)
    from rfl]
  rw [findSession_updateFirst_ne st.sessions tid tid' _
    (saveHistFun_id aiKey role content) hne]

/-- The direct-call dispatch/resolve flow of `sendPromptToSelectedAIs`
(prompt.js lines 148-203) and `handleApiChat` (api-chat module lines
268-325), with a session switch in between: `capturedSessionId =
getCurrentSessionId()` is read once at dispatch (line 160); the user message
is saved with it (`saveApiHistory(aiKey, 'user', prompt, capturedSessionId)`,
line 190); the user switches to session `id2`; on resolution the response is
saved with the same captured id
(`appendApiMessage(panel, 'assistant', responseText, true, targetSessionId)`
→ `saveApiHistory(aiKey, 'assistant', text, targetSessionId)`).  Both
occurrences of `st.currentSessionId` below refer to the pre-dispatch state,
exactly like the captured variable. -/
def dispatchAndResolve (st : SessionsState)
    (id2 aiKey userC asstC : String) : SessionsState :=
  saveApiHistory
    (setCurrentSessionId
      (saveApiHistory st aiKey "user" userC st.currentSessionId) id2)
    aiKey "assistant" asstC st.currentSessionId

/-- C4: a direct-call request captures the dispatch-time session id; even
after switching to `id2` before resolution, the user message and response
land in the captured session `id1`'s history (drop-oldest windowed), and
every history of `id2` is unchanged, while `id2` is the current session when
the response arrives. -/
theorem captured_session_isolation (st : SessionsState)
    (id1 id2 aiKey userC asstC : String)
    (hcur : st.currentSessionId = some id1)
    (hne : id2 ≠ id1)
    (hfound : (findSession st.sessions id1).isSome) :
    getHistoryOf (dispatchAndResolve st id2 aiKey userC asstC) id1 aiKey =
      lastN API_HISTORY_LIMIT (getHistoryOf st id1 aiKey ++
        [{ role := "user", content := userC },
         { role := "assistant", content := asstC }]) ∧
    ((getHistoryOf st id1 aiKey).length + 2 ≤ API_HISTORY_LIMIT →
      getHistoryOf (dispatchAndResolve st id2 aiKey userC asstC) id1 aiKey =
        getHistoryOf st id1 aiKey ++
          [{ role := "user", content := userC },
           { role := "assistant", content := asstC }]) ∧
    (∀ k : String,
      getHistoryOf (dispatchAndResolve st id2 aiKey userC asstC) id2 k =
        getHistoryOf st id2 k) ∧
    (dispatchAndResolve st id2 aiKey userC asstC).currentSessionId =
      some id2 := by
  have hd : dispatchAndResolve st id2 aiKey userC asstC =
      saveApiHistory
        (setCurrentSessionId
          (saveApiHistory st aiKey "user" userC (some id1)) id2)
        aiKey "assistant" asstC (some id1) := by
    rw [dispatchAndResolve, hcur]
  have hsess1 :
      (setCurrentSessionId
        (saveApiHistory st aiKey "user" userC (some id1)) id2).sessions =
      (saveApiHistory st aiKey "user" userC (some id1)).sessions := rfl
  have hhist1 : ∀ sid k,
      getHistoryOf (setCurrentSessionId
        (saveApiHistory st aiKey "user" userC (some id1)) id2) sid k =
      getHistoryOf (saveApiHistory st aiKey "user" userC (some id1)) sid k :=
    fun _ _ => rfl
  have hfound1 :
      (findSession (setCurrentSessionId
        (saveApiHistory st aiKey "user" userC (some id1)) id2).sessions
        id1).isSome := by
    rw [hsess1, saveApiHistory_some]
    show (findSession (updateFirstSession st.sessions id1
      (saveHistFun aiKey "user" userC)) id1).isSome
    rw [findSession_updateFirst st.sessions id1 _
      (saveHistFun_id aiKey "user" userC)]
    obtain ⟨s, hs⟩ := Option.isSome_iff_exists.mp hfound
    rw [hs]
    rfl
  have hmain :
      getHistoryOf (dispatchAndResolve st id2 aiKey userC asstC) id1 aiKey =
      lastN API_HISTORY_LIMIT (getHistoryOf st id1 aiKey ++
        [{ role := "user", content := userC },
         { role := "assistant", content := asstC }]) := by
    rw [hd, getHistoryOf_save_same _ _ _ _ _ hfound1, hhist1,
      getHistoryOf_save_same _ _ _ _ _ hfound,
      apiHistoryAppend_eq_lastN, apiHistoryAppend_eq_lastN,
      lastN_lastN_append, List.append_assoc]
    rfl
  refine ⟨hmain, ?_, ?_, ?_⟩
  · intro hlen
    rw [hmain, lastN_of_length_le]
    rw [List.length_append]
    simpa using hlen
  · intro k
    rw [hd, getHistoryOf_save_other _ _ _ _ _ _ _ hne, hhist1,
      getHistoryOf_save_other _ _ _ _ _ _ _ hne]
  · rw [hd, saveApiHistory_some]
    rfl

/-- Concrete two-session state for the C4 witness. -/
def stTwoSessions : SessionsState :=
  ⟨[testSession "s1" 1 [], testSession "s2" 2 []], some "s1", 2⟩

/-- C4 witness: dispatch in `s1`, switch to `s2`, resolve — the exchange is
appended to `s1`'s history and `s2`'s history stays empty. -/
theorem captured_session_isolation_witness :
    getHistoryOf (dispatchAndResolve stTwoSessions "s2" "x" "hello" "world")
        "s1" "x" =
      getHistoryOf stTwoSessions "s1" "x" ++
        [{ role := "user", content := "hello" },
         { role := "assistant", content := "world" }] ∧
    getHistoryOf (dispatchAndResolve stTwoSessions "s2" "x" "hello" "world")
        "s2" "x" =
      getHistoryOf stTwoSessions "s2" "x" :=
  ⟨(captured_session_isolation stTwoSessions "s1" "s2" "x" "hello" "world"
      rfl (by decide) (by decide)).2.1 (by decide),
   (captured_session_isolation stTwoSessions "s1" "s2" "x" "hello" "world"
      rfl (by decide) (by decide)).2.2.1 "x"⟩

/-!
## C6 — divider drags: conservation and minimum clamp
-/

/-- Flattening the two sequential clamps of `onResize` into their four
execution paths. -/
theorem onResize_eq_cases (a b δ : ℚ) :
    onResize a b δ =
      if a + δ < 150 then
        if a + b - 150 < 150 then ((a + b - 150 : ℚ), (150 : ℚ))
        else (150, a + b - 150)
      else
        if b - δ < 150 then (a + b - 150, 150)
        else (a + δ, b - δ) := by
  simp only [onResize]
  by_cases h1 : a + δ < 150
  · simp only [if_pos h1]
  · simp only [if_neg h1]

theorem onResize_sum (a b δ : ℚ) :
    (onResize a b δ).1 + (onResize a b δ).2 = a + b := by
  rw [onResize_eq_cases]
  split_ifs <;> dsimp only <;> ring

theorem onResize_min (a b δ : ℚ) (hsum : 2 * 150 ≤ a + b) :
    150 ≤ (onResize a b δ).1 ∧ 150 ≤ (onResize a b δ).2 := by
  rw [onResize_eq_cases]
  split_ifs with h1 h2 h3 <;> dsimp only <;> constructor <;> linarith

theorem onResize_clamp_low (a b δ : ℚ) (hsum : 2 * 150 ≤ a + b)
    (hlow : a + δ < 150) : onResize a b δ = (150, a + b - 150) := by
  rw [onResize_eq_cases, if_pos hlow, if_neg (by linarith : ¬a + b - 150 < 150)]

theorem onResize_clamp_high (a b δ : ℚ) (hhigh : 150 ≤ a + δ)
    (hlow : b - δ < 150) : onResize a b δ = (a + b - 150, 150) := by
  rw [onResize_eq_cases, if_neg (not_lt.mpr hhigh), if_pos hlow]

theorem onGridResize_spec (sizes : List ℚ) (i : Nat) (δ : ℚ)
    (hlen : i + 1 < sizes.length) :
    (onGridResize sizes i δ)[i]?.getD 0 +
        (onGridResize sizes i δ)[i + 1]?.getD 0 =
      sizes[i]?.getD 0 + sizes[i + 1]?.getD 0 ∧
    (2 * 150 ≤ sizes[i]?.getD 0 + sizes[i + 1]?.getD 0 →
      150 ≤ (onGridResize sizes i δ)[i]?.getD 0 ∧
      150 ≤ (onGridResize sizes i δ)[i + 1]?.getD 0) ∧
    (∀ j : Nat, j ≠ i → j ≠ i + 1 →
      (onGridResize sizes i δ)[j]? = sizes[j]?) := by
  have hi : i < sizes.length := Nat.lt_of_succ_lt hlen
  have hlen' : i + 1 < (sizes.set i (onResize (sizes[i]?.getD 0)
      (sizes[i + 1]?.getD 0) δ).1).length := by
    rw [List.length_set]
    exact hlen
  have hgrid : onGridResize sizes i δ =
      (sizes.set i (onResize (sizes[i]?.getD 0) (sizes[i + 1]?.getD 0) δ).1).set
        (i + 1) (onResize (sizes[i]?.getD 0) (sizes[i + 1]?.getD 0) δ).2 := rfl
  have hne : i ≠ i + 1 := Nat.ne_of_lt (Nat.lt_succ_self i)
  have hAt_i : (onGridResize sizes i δ)[i]? =
      some (onResize (sizes[i]?.getD 0) (sizes[i + 1]?.getD 0) δ).1 := by
    rw [hgrid, List.getElem?_set_ne hne.symm,
      List.getElem?_set_eq_of_lt _ hi]
  have hAt_i1 : (onGridResize sizes i δ)[i + 1]? =
      some (onResize (sizes[i]?.getD 0) (sizes[i + 1]?.getD 0) δ).2 := by
    rw [hgrid, List.getElem?_set_eq_of_lt _ hlen']
  refine ⟨?_, ?_, ?_⟩
  · rw [hAt_i, hAt_i1]
    exact onResize_sum _ _ δ
  · intro hsum
    rw [hAt_i, hAt_i1]
    exact onResize_min _ _ δ hsum
  · intro j hji hji1
    rw [hgrid, List.getElem?_set_ne (fun hx => hji1 hx.symm),
      List.getElem?_set_ne (fun hx => hji hx.symm)]

/-- C6: a divider drag conserves the pair sum of the two affected extents
(linearly and in the grid, where other entries are untouched); when the
pre-drag pair sum is at least twice the 150px minimum neither result is below
150, and a candidate below the minimum is clamped to 150 with the other side
getting the whole remaining budget. -/
theorem resize_conservation_minimum (a b δ : ℚ) (sizes : List ℚ) (i : Nat)
    (dg : ℚ) (hlen : i + 1 < sizes.length) :
    ((onResize a b δ).1 + (onResize a b δ).2 = a + b) ∧
    (2 * 150 ≤ a + b →
      150 ≤ (onResize a b δ).1 ∧ 150 ≤ (onResize a b δ).2) ∧
    (2 * 150 ≤ a + b → a + δ < 150 →
      onResize a b δ = (150, a + b - 150)) ∧
    (150 ≤ a + δ → b - δ < 150 → onResize a b δ = (a + b - 150, 150)) ∧
    ((onGridResize sizes i dg)[i]?.getD 0 +
        (onGridResize sizes i dg)[i + 1]?.getD 0 =
      sizes[i]?.getD 0 + sizes[i + 1]?.getD 0) ∧
    (2 * 150 ≤ sizes[i]?.getD 0 + sizes[i + 1]?.getD 0 →
      150 ≤ (onGridResize sizes i dg)[i]?.getD 0 ∧
      150 ≤ (onGridResize sizes i dg)[i + 1]?.getD 0) ∧
    (∀ j : Nat, j ≠ i → j ≠ i + 1 →
      (onGridResize sizes i dg)[j]? = sizes[j]?) := by
  obtain ⟨g1, g2, g3⟩ := onGridResize_spec sizes i dg hlen
  exact ⟨onResize_sum a b δ, onResize_min a b δ,
    fun hs hl => onResize_clamp_low a b δ hs hl,
    fun hh hl => onResize_clamp_high a b δ hh hl, g1, g2, g3⟩

/-- C6 witness: concrete drags — `(400, 300)` dragged by `-400` clamps to
`(150, 550)`; the grid pair `[400, 300]` dragged by `100` conserves its
sum. -/
theorem resize_conservation_minimum_witness :
    (onResize 400 300 (-400)).1 + (onResize 400 300 (-400)).2 =
      400 + 300 ∧
    onResize 400 300 (-400) = (150, 400 + 300 - 150) ∧
    (onGridResize [400, 300] 0 100)[0]?.getD 0 +
        (onGridResize [400, 300] 0 100)[1]?.getD 0 =
      ([400, 300] : List ℚ)[0]?.getD 0 + ([400, 300] : List ℚ)[1]?.getD 0 :=
  ⟨(resize_conservation_minimum 400 300 (-400) [400, 300] 0 100
      (by decide)).1,
   (resize_conservation_minimum 400 300 (-400) [400, 300] 0 100
      (by decide)).2.2.1 (by norm_num) (by norm_num),
   (resize_conservation_minimum 400 300 (-400) [400, 300] 0 100
      (by decide)).2.2.2.2.1⟩

/-!
## C7 — panel cache reuse and recreation
-/

theorem getOrCreate_contentMode (cached : Option PanelInstance)
    (mode : String) (fresh : Nat) :
    (getOrCreate cached mode fresh).1.contentMode = mode := by
  cases cached with
  | none => rfl
  | some p =>
    by_cases h : p.contentMode = mode
    · simp [getOrCreate, h]
    · simp [getOrCreate, h]

/-- C7: after any first request, a second request with the same mode returns
the identical cached instance and constructs nothing; a request after a mode
change constructs a new instance (the result differs from the cached one)
whose content kind matches the new mode. -/
theorem panel_cache_mode_semantics (cached : Option PanelInstance)
    (mode newMode : String) (fresh : Nat) (hne : newMode ≠ mode) :
    getOrCreate (some (getOrCreate cached mode fresh).1) mode
        (getOrCreate cached mode fresh).2.1 =
      ((getOrCreate cached mode fresh).1,
        (getOrCreate cached mode fresh).2.1, false) ∧
    (getOrCreate (some (getOrCreate cached mode fresh).1) newMode
        (getOrCreate cached mode fresh).2.1).1 ≠
      (getOrCreate cached mode fresh).1 ∧
    (getOrCreate (some (getOrCreate cached mode fresh).1) newMode
        (getOrCreate cached mode fresh).2.1).1.contentMode = newMode ∧
    (getOrCreate (some (getOrCreate cached mode fresh).1) newMode
        (getOrCreate cached mode fresh).2.1).2.2 = true := by
  have hm := getOrCreate_contentMode cached mode fresh
  have hmm : (getOrCreate cached mode fresh).1.contentMode ≠ newMode := by
    rw [hm]
    exact fun hx => hne hx.symm
  refine ⟨?_, ?_, ?_, ?_⟩
  · rw [getOrCreate, if_pos hm]
  · rw [getOrCreate, if_neg hmm]
    intro hx
    apply hne
    rw [← hm, ← hx]
  · rw [getOrCreate, if_neg hmm]
  · rw [getOrCreate, if_neg hmm]

/-- C7 witness: a fresh direct-call panel is reused as long as the mode stays
`"api"`, and replaced by a `"web"`-content panel after the mode changes. -/
theorem panel_cache_mode_semantics_witness :
    getOrCreate (some (getOrCreate none "api" 0).1) "api"
        (getOrCreate none "api" 0).2.1 =
      ((getOrCreate none "api" 0).1, (getOrCreate none "api" 0).2.1,
        false) ∧
    (getOrCreate (some (getOrCreate none "api" 0).1) "web"
        (getOrCreate none "api" 0).2.1).1.contentMode = "web" :=
  ⟨(panel_cache_mode_semantics none "api" "web" 0 (by decide)).1,
   (panel_cache_mode_semantics none "api" "web" 0 (by decide)).2.2.1⟩

/-!
## C2 — topology switching and persisted size records
-/

/-- Concrete layout state for the C2 counterexample: a grid record is
persisted while the horizontal topology is active. -/
def layoutWithGridRecord : LayoutState :=
  ⟨LayoutMode.horizontal, none, none, ⟨none, none, some "3fr 1fr"⟩⟩

/-- C2 counterexample: switching to the grid topology removes the grid's own
persisted record (`clearSizes` runs after the new mode is applied) and leaves
the visual state at the default instead of restoring the stored record. -/
theorem switch_topology_removes_record :
    layoutWithGridRecord.store.gridSizes = some "3fr 1fr" ∧
    (setLayoutMode layoutWithGridRecord LayoutMode.grid).store.gridSizes =
      none ∧
    (setLayoutMode layoutWithGridRecord
      LayoutMode.grid).appliedGridTemplate = none := by
  refine ⟨rfl, rfl, rfl⟩

/-- C2 (amended): switching the layout topology removes the *newly active*
topology's persisted size record (the other topologies' records are
untouched), clears all applied visual overrides, and always leaves the new
topology at equal distribution — the stored record is never restored because
`clearSizes` removed it before `restoreSizes` runs. -/
theorem switch_topology_resets (st : LayoutState) (m : LayoutMode) :
    (setLayoutMode st m).store.record m = none ∧
    (∀ m' : LayoutMode, m' ≠ m →
      (setLayoutMode st m).store.record m' = st.store.record m') ∧
    (setLayoutMode st m).appliedFlex = none ∧
    (setLayoutMode st m).appliedGridTemplate = none ∧
    (setLayoutMode st m).currentMode = m := by
  cases m <;>
    exact ⟨rfl,
      fun m' hne => by cases m' <;> first | exact absurd rfl hne | rfl,
      rfl, rfl, rfl⟩

/-- C2 witness for the amended claim: switching to grid leaves the
horizontal record untouched. -/
theorem switch_topology_resets_witness :
    (setLayoutMode layoutWithGridRecord LayoutMode.grid).store.record
        LayoutMode.horizontal =
      layoutWithGridRecord.store.record LayoutMode.horizontal :=
  (switch_topology_resets layoutWithGridRecord LayoutMode.grid).2.1
    LayoutMode.horizontal (by decide)

end OnePrompt
